import Mathlib

/-!
Shallow embedding of the peers package of this repository: the TopicPool
operations (ConfirmAdded, ConfirmDropped, processFoundNode, the found-node
step of handleFoundPeers, StopSearch) and the PeerPool operations (the
topic-pool construction done by Start, the PeerAdd branch of
handleServerPeers, Stop).  Side effects on the p2p server, the peer cache
and the period channel are recorded as an explicit list of actions.
Machine integers of the source (the connected counter, mclock.AbsTime
timestamps, durations in nanoseconds) are modeled as Int; node identifiers
and topics as Nat.  The peers map is modeled as an association list with
first-occurrence lookup, replace and delete.
-/

namespace StatusPeers

/-- A discovery node record (discv5.Node): identity plus address fields. -/
structure Node where
  id : Nat
  ip : Nat
  udp : Nat
  tcp : Nat
deriving DecidableEq

/-- Go struct peerInfo: discovery timestamp, connected and requested flags,
and the underlying node record. -/
structure PeerInfo where
  discoveredTime : Int
  connected : Bool
  requested : Bool
  node : Node
deriving DecidableEq

/-- Go type params.Limits: limits[0] is the min and limits[1] the max
number of peers for a topic. -/
structure Limits where
  min : Int
  max : Int
deriving DecidableEq

/-- Cache contents as a list of (topic, node) records. -/
abbrev Cache := List (Nat × Node)

/-- Observable side effects of the pool code: requests to the p2p server,
cache writes, period-channel sends, channel closes and discv5 shutdown. -/
inductive Action where
  | addPeer (n : Node)
  | removePeer (n : Node)
  | cacheAddPeer (n : Node) (topic : Nat)
  | cacheRemovePeer (nodeID : Nat) (topic : Nat)
  | periodSend (d : Int)
  | closeDiscv5
  | closeQuit (topic : Nat)
  | closePeriod (topic : Nat)
  | closePoolQuit
  | unsubscribe
deriving DecidableEq

/-- Go constant expirationPeriod = 60 * time.Minute, in nanoseconds. -/
def expirationPeriod : Int := 3600000000000

/-- Go constant DefaultFastSync = 3 * time.Second, in nanoseconds. -/
def DefaultFastSync : Int := 3000000000

/-- Go constant DefaultSlowSync = 30 * time.Minute, in nanoseconds. -/
def DefaultSlowSync : Int := 1800000000000

/-- The state of struct TopicPool.  The quit channel is modeled as
none (nil channel), some false (open) or some true (closed); the running
int32 as a Bool; the period channel is represented only by its
closed flag plus periodSend actions. -/
structure TopicPool where
  topic : Nat
  limits : Limits
  slowSync : Int
  fastSync : Int
  quit : Option Bool
  running : Bool
  connected : Int
  peers : List (Nat × PeerInfo)
  periodClosed : Bool
  cache : Option Cache
deriving DecidableEq

/-- NewTopicPool: the source sets topic, limits, slowSync, fastSync and an
empty peers map; every other field keeps its Go zero value (nil quit
channel, running = 0, connected = 0, nil cache). -/
def NewTopicPool (topic : Nat) (limits : Limits) (slowSync fastSync : Int) : TopicPool :=
  { topic := topic, limits := limits, slowSync := slowSync, fastSync := fastSync,
    quit := none, running := false, connected := 0, peers := [],
    periodClosed := false, cache := none }

/-- Lookup in the peers map (first occurrence of the key). -/
def lookupPeer : List (Nat × PeerInfo) → Nat → Option PeerInfo
  | [], _ => none
  | kv :: rest, nodeID => if kv.1 = nodeID then some kv.2 else lookupPeer rest nodeID

/-- Map write t.peers[id] = v: replace the first occurrence of the key, or
append a fresh entry. -/
def insertPeer : List (Nat × PeerInfo) → Nat → PeerInfo → List (Nat × PeerInfo)
  | [], nodeID, v => [(nodeID, v)]
  | kv :: rest, nodeID, v =>
    if kv.1 = nodeID then (nodeID, v) :: rest else kv :: insertPeer rest nodeID v

/-- Map delete(t.peers, id): drop the first occurrence of the key. -/
def erasePeer : List (Nat × PeerInfo) → Nat → List (Nat × PeerInfo)
  | [], _ => []
  | kv :: rest, nodeID => if kv.1 = nodeID then rest else kv :: erasePeer rest nodeID

/-- Number of entries of the peers map whose connected flag is true. -/
def countConnected (l : List (Nat × PeerInfo)) : Nat :=
  (l.filter fun kv => kv.2.connected).length

/-- TopicPool.SearchRunning: the running flag. -/
def SearchRunning (t : TopicPool) : Bool :=
  t.running

/-- TopicPool.MaxReached: connected == limits[1]. -/
def MaxReached (t : TopicPool) : Bool :=
  decide (t.connected = t.limits.max)

/-- TopicPool.BelowMin: connected < limits[0]. -/
def BelowMin (t : TopicPool) : Bool :=
  decide (t.connected < t.limits.min)

/-- TopicPool.ConfirmAdded.  Returns the new pool state together with the
emitted effects: a cache AddPeer when a cache is configured, either the
over-capacity removal request or the connected-flag update, and the
slow-period send when the min boundary is hit while search runs. -/
def ConfirmAdded (t : TopicPool) (nodeID : Nat) : TopicPool × List Action :=
  match lookupPeer t.peers nodeID with
  | none => (t, [])
  | some peer =>
    let cacheActs : List Action :=
      match t.cache with
      | some _ => [Action.cacheAddPeer peer.node t.topic]
      | none => []
    if t.connected = t.limits.max then
      ({ t with peers := insertPeer t.peers nodeID { peer with requested := true } },
       cacheActs ++ [Action.removePeer peer.node])
    else
      let t1 : TopicPool :=
        if peer.connected = false then
          { t with peers := insertPeer t.peers nodeID { peer with connected := true },
                   connected := t.connected + 1 }
        else t
      let periodActs : List Action :=
        if SearchRunning t1 = true ∧ t1.connected = t1.limits.min then
          [Action.periodSend t1.slowSync]
        else []
      (t1, cacheActs ++ periodActs)

/-- The replacement-scan predicate of ConfirmDropped: a candidate is usable
when it is not connected and was discovered less than expirationPeriod ago. -/
def freshCandidate (now : Int) (kv : Nat × PeerInfo) : Bool :=
  !kv.2.connected && decide (now < kv.2.discoveredTime + expirationPeriod)

/-- TopicPool.ConfirmDropped.  Returns ((new state, effects),
(replacement peer, ignored)). -/
def ConfirmDropped (t : TopicPool) (nodeID : Nat) (now : Int) :
    (TopicPool × List Action) × (Option PeerInfo × Bool) :=
  match lookupPeer t.peers nodeID with
  | none => ((t, []), (none, true))
  | some peer =>
    if peer.requested = true then ((t, []), (none, true))
    else
      let periodActs : List Action :=
        if SearchRunning t = true ∧ t.connected = t.limits.min then
          [Action.periodSend t.fastSync]
        else []
      let t1 : TopicPool :=
        { t with connected := t.connected - 1, peers := erasePeer t.peers nodeID }
      let cacheActs : List Action :=
        match t.cache with
        | some _ => [Action.cacheRemovePeer nodeID t.topic]
        | none => []
      let rep : Option (Nat × PeerInfo) := t1.peers.find? (freshCandidate now)
      let repActs : List Action :=
        match rep with
        | some kv => [Action.addPeer kv.2.node]
        | none => []
      ((t1, periodActs ++ [Action.removePeer peer.node] ++ cacheActs ++ repActs),
       (rep.map Prod.snd, false))

/-- TopicPool.processFoundNode.  The entry written into the peers map is
read back immediately by the source as t.peers[node.ID]; here it is the
value info that was just inserted. -/
def processFoundNode (t : TopicPool) (node : Node) (now : Int) : TopicPool × List Action :=
  let info : PeerInfo :=
    match lookupPeer t.peers node.id with
    | some i => { i with discoveredTime := now }
    | none => { discoveredTime := now, connected := false, requested := false, node := node }
  let t1 : TopicPool := { t with peers := insertPeer t.peers node.id info }
  let acts : List Action :=
    if t1.connected < t1.limits.max ∧ info.connected = false then
      [Action.addPeer info.node]
    else []
  (t1, acts)

/-- One iteration of the consumer loop in handleFoundPeers for a node read
from the found channel: nodes whose id equals the server own id are
dropped before processFoundNode. -/
def handleFoundPeersStep (selfID : Nat) (t : TopicPool) (node : Node) (now : Int) :
    TopicPool × List Action :=
  if node.id ≠ selfID then processFoundNode t node now else (t, [])

/-- TopicPool.StopSearch: a no-op unless the running flag is set and the
quit channel exists and is still open; otherwise it closes quit, clears
the running flag and closes the period channel. -/
def StopSearch (t : TopicPool) : TopicPool × List Action :=
  if SearchRunning t = false then (t, [])
  else
    match t.quit with
    | none => (t, [])
    | some true => (t, [])
    | some false =>
      ({ t with running := false, quit := some true, periodClosed := true },
       [Action.closeQuit t.topic, Action.closePeriod t.topic])

/-- Modelled from the spec: Cache.GetPeersRange returns up to n cached
node records for the topic (the cache implementation file itself is not
part of src; only its interface is used by the pool code). -/
def cacheGetPeersRange (c : Cache) (topic : Nat) (n : Nat) : List Node :=
  ((c.filter fun e => e.1 = topic).map Prod.snd).take n

/-- The nodes StartSearch pushes onto the found channel before starting the
workers: up to 5 cache entries when t.cache is set, nothing otherwise. -/
def startSearchSeed (t : TopicPool) : List Node :=
  match t.cache with
  | none => []
  | some c => cacheGetPeersRange c t.topic 5

/-- The state of struct PeerPool: configuration plus the runtime fields
touched by Start and Stop (topic pools and the quit channel). -/
structure PeerPool where
  config : List (Nat × Limits)
  fastSync : Int
  slowSync : Int
  cache : Option Cache
  stopOnMax : Bool
  topics : List TopicPool
  quit : Option Bool
deriving DecidableEq

/-- NewPeerPool: stores the configuration; topics and quit keep their Go
zero values. -/
def NewPeerPool (config : List (Nat × Limits)) (fastSync slowSync : Int)
    (cache : Option Cache) (stopOnMax : Bool) : PeerPool :=
  { config := config, fastSync := fastSync, slowSync := slowSync, cache := cache,
    stopOnMax := stopOnMax, topics := [], quit := none }

/-- The topic pools built by PeerPool.Start: one NewTopicPool per
configured (topic, limits) pair, exactly as the source calls it. -/
def startTopicPools (p : PeerPool) : List TopicPool :=
  p.config.map fun c => NewTopicPool c.1 c.2 p.slowSync p.fastSync

/-- PeerPool.Stop: a no-op when the quit channel is nil or already closed;
otherwise closes quit, unsubscribes from server events and stops every
topic pool search. -/
def Stop (p : PeerPool) : PeerPool × List Action :=
  match p.quit with
  | none => (p, [])
  | some true => (p, [])
  | some false =>
    let stopped := p.topics.map StopSearch
    ({ p with quit := some true, topics := stopped.map Prod.fst },
     Action.closePoolQuit :: Action.unsubscribe :: (stopped.map Prod.snd).flatten)

/-- The dispatch-loop state of handleServerPeers that the PeerAdd branch
touches: the topic pools, the config size, the stopOnMax flag, whether the
server still holds a discv5 handle, and a crashed flag that records a nil
dereference (calling Close on a nil discv5 handle). -/
structure DispatchState where
  topics : List TopicPool
  configLen : Nat
  stopOnMax : Bool
  discv5 : Bool
  crashed : Bool
deriving DecidableEq

/-- The per-topic body of the PeerAdd branch: ConfirmAdded, then, when
stopOnMax is set and the topic reached max, StopSearch and a bump of the
total counter. -/
def confirmAddStep (nodeID : Nat) (stopOnMax : Bool)
    (acc : List TopicPool × List Action × Nat) (t : TopicPool) :
    List TopicPool × List Action × Nat :=
  let r1 := ConfirmAdded t nodeID
  if stopOnMax = true ∧ MaxReached r1.1 = true then
    let r2 := StopSearch r1.1
    (acc.1 ++ [r2.1], acc.2.1 ++ r1.2 ++ r2.2, acc.2.2 + 1)
  else
    (acc.1 ++ [r1.1], acc.2.1 ++ r1.2, acc.2.2)

/-- The PeerAdd branch of handleServerPeers.  When stopOnMax is set and
every configured topic reports MaxReached, the source calls
server.DiscV5.Close() unconditionally; when the handle was already set to
nil by a previous saturation event this dereferences nil, which is
modeled by the crashed flag. -/
def handlePeerAddEvent (s : DispatchState) (nodeID : Nat) : DispatchState × List Action :=
  if s.crashed = true then (s, [])
  else
    let r := s.topics.foldl (confirmAddStep nodeID s.stopOnMax) ([], [], 0)
    if s.stopOnMax = true ∧ r.2.2 = s.configLen then
      if s.discv5 = true then
        ({ s with topics := r.1, discv5 := false }, r.2.1 ++ [Action.closeDiscv5])
      else
        ({ s with topics := r.1, crashed := true }, r.2.1)
    else
      ({ s with topics := r.1 }, r.2.1)

/-- One call made to a TopicPool by the event machinery: a confirmed add,
a confirmed drop at a given monotonic time, or a discovered node. -/
inductive Op where
  | added (nodeID : Nat)
  | dropped (nodeID : Nat) (now : Int)
  | found (node : Node) (now : Int)
deriving DecidableEq

/-- State reached after one operation (effects discarded). -/
def applyOp (t : TopicPool) : Op → TopicPool
  | Op.added nodeID => (ConfirmAdded t nodeID).1
  | Op.dropped nodeID now => ((ConfirmDropped t nodeID now).1).1
  | Op.found node now => (processFoundNode t node now).1

/-- State reached after a sequence of operations. -/
def runOps : TopicPool → List Op → TopicPool
  | t, [] => t
  | t, op :: ops => runOps (applyOp t op) ops

/-- Sample node records used by concrete evaluations. -/
def nodeA : Node := ⟨101, 1, 30303, 30303⟩

def nodeB : Node := ⟨102, 2, 30303, 30303⟩

def nodeC : Node := ⟨103, 3, 30303, 30303⟩

theorem lookupPeer_insertPeer_self (l : List (Nat × PeerInfo)) (nodeID : Nat) (v : PeerInfo) :
    lookupPeer (insertPeer l nodeID v) nodeID = some v := by
  induction l with
  | nil => simp [insertPeer, lookupPeer]
  | cons kv rest ih =>
    by_cases h : kv.1 = nodeID
    · simp [insertPeer, h, lookupPeer]
    · simp [insertPeer, h, lookupPeer, ih]

theorem lookupPeer_insertPeer_ne (l : List (Nat × PeerInfo)) (nodeID : Nat) (v : PeerInfo)
    (other : Nat) (h : other ≠ nodeID) :
    lookupPeer (insertPeer l nodeID v) other = lookupPeer l other := by
  have hno : ¬ (nodeID = other) := fun hc => h hc.symm
  induction l with
  | nil => simp [insertPeer, lookupPeer, hno]
  | cons kv rest ih =>
    by_cases hk : kv.1 = nodeID <;> by_cases hko : kv.1 = other <;>
      simp_all [insertPeer, lookupPeer]

theorem lookupPeer_erasePeer_ne (l : List (Nat × PeerInfo)) (nodeID : Nat)
    (other : Nat) (h : other ≠ nodeID) :
    lookupPeer (erasePeer l nodeID) other = lookupPeer l other := by
  have hno : ¬ (nodeID = other) := fun hc => h hc.symm
  induction l with
  | nil => simp [erasePeer]
  | cons kv rest ih =>
    by_cases hk : kv.1 = nodeID <;> by_cases hko : kv.1 = other <;>
      simp_all [erasePeer, lookupPeer]

theorem confirmDropped_of_requested (t : TopicPool) (nodeID : Nat) (now : Int) (p : PeerInfo)
    (hp : lookupPeer t.peers nodeID = some p) (hreq : p.requested = true) :
    ConfirmDropped t nodeID now = ((t, []), (none, true)) := by
  unfold ConfirmDropped
  rw [hp]
  simp [hreq]

/-- Claim C5: when ConfirmDropped finds a PeerInfo for the node whose
requested flag is true, it returns (nil, ignored=true) and leaves the
connected counter, the peers table and the cache unchanged, emitting no
effects at all. -/
theorem c5_requested_drop_ignored (t : TopicPool) (nodeID : Nat) (now : Int) (p : PeerInfo)
    (hp : lookupPeer t.peers nodeID = some p) (hreq : p.requested = true) :
    ConfirmDropped t nodeID now = ((t, []), (none, true)) :=
  confirmDropped_of_requested t nodeID now p hp hreq

/-- A sample pool holding one requested entry (node 101) and one connected
entry (node 102). -/
def reqPool : TopicPool :=
  { topic := 4, limits := ⟨1, 2⟩, slowSync := DefaultSlowSync, fastSync := DefaultFastSync,
    quit := some false, running := true, connected := 1,
    peers := [(101, ⟨0, false, true, nodeA⟩), (102, ⟨0, true, false, nodeB⟩)],
    periodClosed := false, cache := some [] }

theorem c5_requested_drop_ignored_witness :
    lookupPeer reqPool.peers 101 = some ⟨0, false, true, nodeA⟩ ∧
    ConfirmDropped reqPool 101 7 = ((reqPool, []), (none, true)) :=
  ⟨by decide,
   c5_requested_drop_ignored reqPool 101 7 ⟨0, false, true, nodeA⟩ (by decide) (by decide)⟩

/-- Claim C3: when ConfirmAdded finds a PeerInfo for the node and the
connected counter equals limits.max, it sets requested=true on that entry,
asks the p2p server to remove the peer, and leaves the counter and every
other peers entry unchanged, so the counter never passes max in that call. -/
theorem c3_overcapacity_gate (t : TopicPool) (nodeID : Nat) (p : PeerInfo)
    (hp : lookupPeer t.peers nodeID = some p) (hmax : t.connected = t.limits.max) :
    (ConfirmAdded t nodeID).1.connected = t.connected ∧
    lookupPeer (ConfirmAdded t nodeID).1.peers nodeID = some { p with requested := true } ∧
    (∀ other : Nat, other ≠ nodeID →
      lookupPeer (ConfirmAdded t nodeID).1.peers other = lookupPeer t.peers other) ∧
    Action.removePeer p.node ∈ (ConfirmAdded t nodeID).2 ∧
    (ConfirmAdded t nodeID).1.connected ≤ t.limits.max := by
  have hgate : ConfirmAdded t nodeID =
      ({ t with peers := insertPeer t.peers nodeID { p with requested := true } },
       (match t.cache with
         | some _ => [Action.cacheAddPeer p.node t.topic]
         | none => []) ++ [Action.removePeer p.node]) := by
    unfold ConfirmAdded
    rw [hp]
    simp [hmax]
  rw [hgate]
  refine ⟨rfl, lookupPeer_insertPeer_self _ _ _, ?_, ?_, ?_⟩
  · intro other hother
    exact lookupPeer_insertPeer_ne t.peers nodeID _ other hother
  · cases t.cache <;> simp
  · exact le_of_eq hmax

/-- A sample pool at its max (limits (1,1), one connected entry 101, one
known candidate 102). -/
def maxPool : TopicPool :=
  { topic := 9, limits := ⟨1, 1⟩, slowSync := DefaultSlowSync, fastSync := DefaultFastSync,
    quit := some false, running := true, connected := 1,
    peers := [(101, ⟨0, true, false, nodeA⟩), (102, ⟨0, false, false, nodeB⟩)],
    periodClosed := false, cache := none }

theorem c3_overcapacity_gate_witness :
    lookupPeer maxPool.peers 102 = some ⟨0, false, false, nodeB⟩ ∧
    maxPool.connected = maxPool.limits.max ∧
    (ConfirmAdded maxPool 102).1.connected = maxPool.connected :=
  ⟨by decide, by decide,
   (c3_overcapacity_gate maxPool 102 ⟨0, false, false, nodeB⟩ (by decide) (by decide)).1⟩

/-- Claim C8: a node read from the found channel whose id equals the server
own node id is dropped before processFoundNode: the pool state and the
peers table are unchanged and no AddPeer request is emitted. -/
theorem c8_self_node_filtered (selfID : Nat) (t : TopicPool) (node : Node) (now : Int)
    (h : node.id = selfID) :
    (handleFoundPeersStep selfID t node now).1 = t ∧
    (handleFoundPeersStep selfID t node now).1.peers = t.peers ∧
    ∀ n : Node, Action.addPeer n ∉ (handleFoundPeersStep selfID t node now).2 := by
  simp [handleFoundPeersStep, h]

theorem c8_self_node_filtered_witness :
    nodeA.id = 101 ∧
    (handleFoundPeersStep 101 reqPool nodeA 3).1 = reqPool :=
  ⟨by decide, (c8_self_node_filtered 101 reqPool nodeA 3 (by decide)).1⟩

/-- Claim C9: a second PeerPool.Stop after Stop, and a second
TopicPool.StopSearch after StopSearch, are no-ops: state unchanged and no
effects emitted. -/
theorem c9_stop_idempotent :
    (∀ p : PeerPool, Stop (Stop p).1 = ((Stop p).1, [])) ∧
    (∀ t : TopicPool, StopSearch (StopSearch t).1 = ((StopSearch t).1, [])) := by
  constructor
  · intro p
    match hq : p.quit with
    | none => simp [Stop, hq]
    | some true => simp [Stop, hq]
    | some false => simp [Stop, hq]
  · intro t
    by_cases hr : SearchRunning t = false
    · simp [StopSearch, hr]
    · have hr2 : t.running = true := by
        have hx := hr
        simp [SearchRunning] at hx
        exact hx
      match hq : t.quit with
      | none => simp [StopSearch, SearchRunning, hr2, hq]
      | some true => simp [StopSearch, SearchRunning, hr2, hq]
      | some false => simp [StopSearch, SearchRunning, hr2, hq]

theorem ConfirmAdded_fst_none (t : TopicPool) (nodeID : Nat)
    (h : lookupPeer t.peers nodeID = none) : ConfirmAdded t nodeID = (t, []) := by
  unfold ConfirmAdded
  rw [h]

theorem ConfirmAdded_peers_max (t : TopicPool) (nodeID : Nat) (p : PeerInfo)
    (hp : lookupPeer t.peers nodeID = some p) (hmax : t.connected = t.limits.max) :
    (ConfirmAdded t nodeID).1.peers = insertPeer t.peers nodeID { p with requested := true } := by
  unfold ConfirmAdded
  rw [hp]
  simp [hmax]

theorem ConfirmAdded_peers_new (t : TopicPool) (nodeID : Nat) (p : PeerInfo)
    (hp : lookupPeer t.peers nodeID = some p) (hmax : ¬ (t.connected = t.limits.max))
    (hconn : p.connected = false) :
    (ConfirmAdded t nodeID).1.peers = insertPeer t.peers nodeID { p with connected := true } := by
  unfold ConfirmAdded
  rw [hp]
  simp [hmax, hconn]

theorem ConfirmAdded_connected_new (t : TopicPool) (nodeID : Nat) (p : PeerInfo)
    (hp : lookupPeer t.peers nodeID = some p) (hmax : ¬ (t.connected = t.limits.max))
    (hconn : p.connected = false) :
    (ConfirmAdded t nodeID).1.connected = t.connected + 1 := by
  unfold ConfirmAdded
  rw [hp]
  simp [hmax, hconn]

theorem ConfirmAdded_fst_already (t : TopicPool) (nodeID : Nat) (p : PeerInfo)
    (hp : lookupPeer t.peers nodeID = some p) (hmax : ¬ (t.connected = t.limits.max))
    (hconn : p.connected = true) :
    (ConfirmAdded t nodeID).1 = t := by
  unfold ConfirmAdded
  rw [hp]
  simp [hmax, hconn]

theorem ConfirmDropped_eq_none (t : TopicPool) (nodeID : Nat) (now : Int)
    (h : lookupPeer t.peers nodeID = none) :
    ConfirmDropped t nodeID now = ((t, []), (none, true)) := by
  unfold ConfirmDropped
  rw [h]

theorem confirmDropped_result (t : TopicPool) (nodeID : Nat) (now : Int) (p : PeerInfo)
    (hp : lookupPeer t.peers nodeID = some p) (hreq : p.requested = false) :
    ((ConfirmDropped t nodeID now).2).1 =
      (List.find? (freshCandidate now) (erasePeer t.peers nodeID)).map Prod.snd ∧
    ((ConfirmDropped t nodeID now).2).2 = false ∧
    (((ConfirmDropped t nodeID now).1).1).peers = erasePeer t.peers nodeID ∧
    (((ConfirmDropped t nodeID now).1).1).connected = t.connected - 1 := by
  unfold ConfirmDropped
  rw [hp]
  simp [hreq]

theorem processFoundNode_peers_known (t : TopicPool) (node : Node) (now : Int) (i : PeerInfo)
    (h : lookupPeer t.peers node.id = some i) :
    (processFoundNode t node now).1.peers =
      insertPeer t.peers node.id { i with discoveredTime := now } := by
  unfold processFoundNode
  rw [h]

theorem processFoundNode_peers_new (t : TopicPool) (node : Node) (now : Int)
    (h : lookupPeer t.peers node.id = none) :
    (processFoundNode t node now).1.peers =
      insertPeer t.peers node.id ⟨now, false, false, node⟩ := by
  unfold processFoundNode
  rw [h]

/-- A peer pool configured with a non-nil cache holding one record for its
single topic. -/
def c4Pool : PeerPool :=
  NewPeerPool [(7, ⟨1, 1⟩)] DefaultFastSync DefaultSlowSync (some [(7, nodeC)]) false

/-- The single topic pool built by Start for c4Pool. -/
def c4Topic : TopicPool := (startTopicPools c4Pool).headD (NewTopicPool 0 ⟨0, 0⟩ 0 0)

/-- Claim C4 (evaluation at the failing input): Start builds its topic
pools through NewTopicPool without handing over the configured cache, so
the topic pool cache stays nil: StartSearch seeds nothing although the
cache holds an entry for the topic, and ConfirmAdded emits no cache write
after the node was discovered and confirmed. -/
theorem c4_cache_never_wired_eval :
    c4Pool.cache = some [(7, nodeC)] ∧
    (startTopicPools c4Pool).map TopicPool.cache = [none] ∧
    startSearchSeed c4Topic = [] ∧
    cacheGetPeersRange [(7, nodeC)] 7 5 = [nodeC] ∧
    (ConfirmAdded (processFoundNode c4Topic nodeB 0).1 102).2 = [] := by
  decide

/-- A saturatable topic pool: limits (1,1) with one known candidate. -/
def c7Topic : TopicPool :=
  { topic := 1, limits := ⟨1, 1⟩, slowSync := DefaultSlowSync, fastSync := DefaultFastSync,
    quit := some false, running := true, connected := 0,
    peers := [(101, ⟨0, false, false, nodeA⟩)], periodClosed := false, cache := none }

/-- Dispatch-loop state before the saturating add event. -/
def c7Start : DispatchState :=
  { topics := [c7Topic], configLen := 1, stopOnMax := true, discv5 := true, crashed := false }

/-- First PeerAdd event: node 101 saturates the only topic. -/
def c7Run1 : DispatchState × List Action := handlePeerAddEvent c7Start 101

/-- Second PeerAdd event: any node while all topics stay saturated. -/
def c7Run2 : DispatchState × List Action := handlePeerAddEvent c7Run1.1 999

/-- Claim C7 (evaluation at the failing input): the first saturation event
closes discv5 exactly once and sets the handle to nil; the next PeerAdd
event while all topics remain saturated evaluates Close on the nil handle,
modeled as the crashed flag, instead of being a harmless second pass. -/
theorem c7_second_close_crashes_eval :
    (c7Run1.2.filter fun a => decide (a = Action.closeDiscv5)).length = 1 ∧
    c7Run1.1.discv5 = false ∧
    c7Run1.1.crashed = false ∧
    c7Run2.1.crashed = true ∧
    (c7Run2.2.filter fun a => decide (a = Action.closeDiscv5)).length = 0 := by
  decide

/-- Claim C1 (evaluation at the failing input): after processFoundNode for
node 101 followed by ConfirmDropped for 101 on a fresh pool, the connected
counter is -1 while no peers entry is marked connected, so the counter
does not equal the count of connected entries. -/
theorem c1_counter_mismatch_eval :
    (runOps (NewTopicPool 1 ⟨1, 2⟩ DefaultSlowSync DefaultFastSync)
        [Op.found nodeA 0, Op.dropped 101 0]).connected = -1 ∧
    countConnected (runOps (NewTopicPool 1 ⟨1, 2⟩ DefaultSlowSync DefaultFastSync)
        [Op.found nodeA 0, Op.dropped 101 0]).peers = 0 ∧
    ¬ ((runOps (NewTopicPool 1 ⟨1, 2⟩ DefaultSlowSync DefaultFastSync)
        [Op.found nodeA 0, Op.dropped 101 0]).connected =
      (countConnected (runOps (NewTopicPool 1 ⟨1, 2⟩ DefaultSlowSync DefaultFastSync)
        [Op.found nodeA 0, Op.dropped 101 0]).peers : Int)) := by
  decide

theorem confirmDropped_addPeer_mem (t : TopicPool) (nodeID : Nat) (now : Int) (p : PeerInfo)
    (hp : lookupPeer t.peers nodeID = some p) (hreq : p.requested = false) (n : Node) :
    (Action.addPeer n ∈ ((ConfirmDropped t nodeID now).1).2 ↔
      ∃ kv : Nat × PeerInfo,
        List.find? (freshCandidate now) (erasePeer t.peers nodeID) = some kv ∧
        n = kv.2.node) := by
  unfold ConfirmDropped
  rw [hp]
  by_cases hper : SearchRunning t = true ∧ t.connected = t.limits.min <;>
    cases hc : t.cache <;>
      cases hfind : List.find? (freshCandidate now) (erasePeer t.peers nodeID) <;>
        simp [hreq, hper, hc, hfind]

/-- Claim C6: when ConfirmDropped reaches its replacement step (node
tracked, not requested), a returned replacement peer is an entry of the
remaining peers table, is not connected, has discoveredTime newer than
now minus expirationPeriod, and the only AddPeer request emitted is for
exactly that peer, with ignored=false; when no such entry exists the call
returns (nil, ignored=false) and emits no AddPeer request. -/
theorem c6_replacement_characterised (t : TopicPool) (nodeID : Nat) (now : Int) (p : PeerInfo)
    (hp : lookupPeer t.peers nodeID = some p) (hreq : p.requested = false) :
    ((ConfirmDropped t nodeID now).2).2 = false ∧
    (∀ q : PeerInfo, ((ConfirmDropped t nodeID now).2).1 = some q →
      (∃ other : Nat, (other, q) ∈ (((ConfirmDropped t nodeID now).1).1).peers) ∧
      q.connected = false ∧
      now - expirationPeriod < q.discoveredTime ∧
      Action.addPeer q.node ∈ ((ConfirmDropped t nodeID now).1).2 ∧
      (∀ n : Node, Action.addPeer n ∈ ((ConfirmDropped t nodeID now).1).2 → n = q.node)) ∧
    (((ConfirmDropped t nodeID now).2).1 = none →
      (∀ other : Nat, ∀ q : PeerInfo,
        (other, q) ∈ (((ConfirmDropped t nodeID now).1).1).peers →
        q.connected = false → ¬ (now - expirationPeriod < q.discoveredTime)) ∧
      (∀ n : Node, Action.addPeer n ∉ ((ConfirmDropped t nodeID now).1).2)) := by
  obtain ⟨hres, hign, hpeers, _⟩ := confirmDropped_result t nodeID now p hp hreq
  refine ⟨hign, ?_, ?_⟩
  · intro q hq
    rw [hres] at hq
    cases hfind : List.find? (freshCandidate now) (erasePeer t.peers nodeID) with
    | none =>
      rw [hfind] at hq
      simp at hq
    | some kv =>
      rw [hfind] at hq
      simp at hq
      subst hq
      have hfk := List.find?_some hfind
      have hmem := List.mem_of_find?_eq_some hfind
      simp [freshCandidate] at hfk
      refine ⟨⟨kv.1, ?_⟩, hfk.1, by omega, ?_, ?_⟩
      · rw [hpeers]
        simpa using hmem
      · rw [confirmDropped_addPeer_mem t nodeID now p hp hreq kv.2.node]
        exact ⟨kv, hfind, rfl⟩
      · intro n hn
        rw [confirmDropped_addPeer_mem t nodeID now p hp hreq n] at hn
        obtain ⟨kv2, hf2, hn2⟩ := hn
        rw [hfind] at hf2
        injection hf2 with h3
        rw [hn2, h3]
  · intro hnone
    rw [hres] at hnone
    have hfind : List.find? (freshCandidate now) (erasePeer t.peers nodeID) = none := by
      cases hf : List.find? (freshCandidate now) (erasePeer t.peers nodeID) with
      | none => rfl
      | some kv =>
        rw [hf] at hnone
        simp at hnone
    constructor
    · intro other q hmemq hconnq
      rw [hpeers] at hmemq
      have hall := List.find?_eq_none.mp hfind (other, q) hmemq
      simp [freshCandidate, hconnq] at hall
      omega
    · intro n hn
      rw [confirmDropped_addPeer_mem t nodeID now p hp hreq n] at hn
      obtain ⟨kv2, hf2, _⟩ := hn
      rw [hfind] at hf2
      cases hf2

/-- A pool holding one connected entry (101), one fresh candidate (102,
discovered at time 50) and one stale candidate (103, discovered far in the
past). -/
def dropPool : TopicPool :=
  { topic := 6, limits := ⟨2, 3⟩, slowSync := DefaultSlowSync, fastSync := DefaultFastSync,
    quit := some false, running := true, connected := 1,
    peers := [(101, ⟨0, true, false, nodeA⟩), (103, ⟨-9999999999999, false, false, nodeC⟩),
              (102, ⟨50, false, false, nodeB⟩)],
    periodClosed := false, cache := none }

theorem c6_replacement_characterised_witness :
    lookupPeer dropPool.peers 101 = some ⟨0, true, false, nodeA⟩ ∧
    ((ConfirmDropped dropPool 101 100).2).2 = false :=
  ⟨by decide,
   (c6_replacement_characterised dropPool 101 100 ⟨0, true, false, nodeA⟩
     (by decide) (by decide)).1⟩

/-- Claim C2 (evaluation at the failing input): after processFoundNode for
node 102 followed by ConfirmDropped for 102 on a fresh pool, the connected
counter is negative, violating the 0 lower bound. -/
theorem c2_negative_counter_eval :
    (runOps (NewTopicPool 2 ⟨1, 3⟩ DefaultSlowSync DefaultFastSync)
        [Op.found nodeB 5, Op.dropped 102 6]).connected = -1 ∧
    ¬ (0 ≤ (runOps (NewTopicPool 2 ⟨1, 3⟩ DefaultSlowSync DefaultFastSync)
        [Op.found nodeB 5, Op.dropped 102 6]).connected) := by
  decide

theorem ConfirmAdded_peers_none (t : TopicPool) (nodeID : Nat)
    (h : lookupPeer t.peers nodeID = none) :
    (ConfirmAdded t nodeID).1.peers = t.peers := by
  rw [ConfirmAdded_fst_none t nodeID h]

theorem ConfirmAdded_peers_already (t : TopicPool) (nodeID : Nat) (p : PeerInfo)
    (hp : lookupPeer t.peers nodeID = some p) (hmax : ¬ (t.connected = t.limits.max))
    (hconn : p.connected = true) :
    (ConfirmAdded t nodeID).1.peers = t.peers := by
  rw [ConfirmAdded_fst_already t nodeID p hp hmax hconn]

theorem ConfirmDropped_peers_none (t : TopicPool) (nodeID : Nat) (now : Int)
    (h : lookupPeer t.peers nodeID = none) :
    (((ConfirmDropped t nodeID now).1).1).peers = t.peers := by
  rw [ConfirmDropped_eq_none t nodeID now h]

theorem ConfirmDropped_peers_requested (t : TopicPool) (nodeID : Nat) (now : Int) (p : PeerInfo)
    (hp : lookupPeer t.peers nodeID = some p) (hreq : p.requested = true) :
    (((ConfirmDropped t nodeID now).1).1).peers = t.peers := by
  rw [confirmDropped_of_requested t nodeID now p hp hreq]

theorem applyOp_requested_preserved (t : TopicPool) (op : Op) (nodeID : Nat) (p q : PeerInfo)
    (hp : lookupPeer t.peers nodeID = some p) (hreq : p.requested = true)
    (hq : lookupPeer (applyOp t op).peers nodeID = some q) :
    q.requested = true := by
  cases op with
  | added id2 =>
    simp only [applyOp] at hq
    cases h2 : lookupPeer t.peers id2 with
    | none =>
      rw [ConfirmAdded_peers_none t id2 h2] at hq
      rw [hp] at hq
      injection hq with h3
      rw [← h3]
      exact hreq
    | some peer2 =>
      by_cases hmax : t.connected = t.limits.max
      · rw [ConfirmAdded_peers_max t id2 peer2 h2 hmax] at hq
        by_cases he : nodeID = id2
        · subst he
          rw [lookupPeer_insertPeer_self] at hq
          injection hq with h3
          rw [← h3]
        · rw [lookupPeer_insertPeer_ne t.peers id2 _ nodeID he] at hq
          rw [hp] at hq
          injection hq with h3
          rw [← h3]
          exact hreq
      · by_cases hconn : peer2.connected = false
        · rw [ConfirmAdded_peers_new t id2 peer2 h2 hmax hconn] at hq
          by_cases he : nodeID = id2
          · subst he
            rw [hp] at h2
            injection h2 with h4
            rw [lookupPeer_insertPeer_self] at hq
            injection hq with h3
            rw [← h3]
            show peer2.requested = true
            rw [← h4]
            exact hreq
          · rw [lookupPeer_insertPeer_ne t.peers id2 _ nodeID he] at hq
            rw [hp] at hq
            injection hq with h3
            rw [← h3]
            exact hreq
        · have hconn2 : peer2.connected = true := by
            revert hconn
            cases peer2.connected <;> simp
          rw [ConfirmAdded_peers_already t id2 peer2 h2 hmax hconn2] at hq
          rw [hp] at hq
          injection hq with h3
          rw [← h3]
          exact hreq
  | dropped id2 now2 =>
    simp only [applyOp] at hq
    cases h2 : lookupPeer t.peers id2 with
    | none =>
      rw [ConfirmDropped_peers_none t id2 now2 h2] at hq
      rw [hp] at hq
      injection hq with h3
      rw [← h3]
      exact hreq
    | some peer2 =>
      by_cases hr2 : peer2.requested = true
      · rw [ConfirmDropped_peers_requested t id2 now2 peer2 h2 hr2] at hq
        rw [hp] at hq
        injection hq with h3
        rw [← h3]
        exact hreq
      · have hr2f : peer2.requested = false := by
          revert hr2
          cases peer2.requested <;> simp
        by_cases he : nodeID = id2
        · subst he
          rw [hp] at h2
          injection h2 with h4
          rw [← h4] at hr2f
          rw [hreq] at hr2f
          simp at hr2f
        · obtain ⟨_, _, hpeers, _⟩ := confirmDropped_result t id2 now2 peer2 h2 hr2f
          rw [hpeers] at hq
          rw [lookupPeer_erasePeer_ne t.peers id2 nodeID he] at hq
          rw [hp] at hq
          injection hq with h3
          rw [← h3]
          exact hreq
  | found node now2 =>
    simp only [applyOp] at hq
    by_cases he : nodeID = node.id
    · subst he
      rw [processFoundNode_peers_known t node now2 p hp] at hq
      rw [lookupPeer_insertPeer_self] at hq
      injection hq with h3
      rw [← h3]
      exact hreq
    · cases h2 : lookupPeer t.peers node.id with
      | some i =>
        rw [processFoundNode_peers_known t node now2 i h2] at hq
        rw [lookupPeer_insertPeer_ne t.peers node.id _ nodeID he] at hq
        rw [hp] at hq
        injection hq with h3
        rw [← h3]
        exact hreq
      | none =>
        rw [processFoundNode_peers_new t node now2 h2] at hq
        rw [lookupPeer_insertPeer_ne t.peers node.id _ nodeID he] at hq
        rw [hp] at hq
        injection hq with h3
        rw [← h3]
        exact hreq

/-- Claim C10: once the over-capacity gate set requested=true it is never
cleared: every operation preserves a true requested flag of a tracked
entry; a later ConfirmAdded below max marks such an entry connected and
increments the counter while requested stays true; and every
ConfirmDropped for a requested entry is classified ignored and leaves the
counter, the table and the effects untouched, so it never decrements. -/
theorem c10_requested_is_sticky :
    (∀ (t : TopicPool) (op : Op) (nodeID : Nat) (p q : PeerInfo),
      lookupPeer t.peers nodeID = some p → p.requested = true →
      lookupPeer (applyOp t op).peers nodeID = some q → q.requested = true) ∧
    (∀ (t : TopicPool) (nodeID : Nat) (p : PeerInfo),
      lookupPeer t.peers nodeID = some p → p.requested = true → p.connected = false →
      ¬ (t.connected = t.limits.max) →
      (ConfirmAdded t nodeID).1.connected = t.connected + 1 ∧
      lookupPeer (ConfirmAdded t nodeID).1.peers nodeID = some { p with connected := true } ∧
      ({ p with connected := true } : PeerInfo).requested = true) ∧
    (∀ (t : TopicPool) (nodeID : Nat) (now : Int) (p : PeerInfo),
      lookupPeer t.peers nodeID = some p → p.requested = true →
      ConfirmDropped t nodeID now = ((t, []), (none, true))) := by
  refine ⟨applyOp_requested_preserved, ?_, ?_⟩
  · intro t nodeID p hp hreq hconn hmax
    refine ⟨ConfirmAdded_connected_new t nodeID p hp hmax hconn, ?_, hreq⟩
    rw [ConfirmAdded_peers_new t nodeID p hp hmax hconn]
    exact lookupPeer_insertPeer_self _ _ _
  · intro t nodeID now p hp hreq
    exact confirmDropped_of_requested t nodeID now p hp hreq

theorem c10_requested_is_sticky_witness :
    lookupPeer reqPool.peers 101 = some ⟨0, false, true, nodeA⟩ ∧
    (ConfirmAdded reqPool 101).1.connected = reqPool.connected + 1 :=
  ⟨by decide,
   (c10_requested_is_sticky.2.1 reqPool 101 ⟨0, false, true, nodeA⟩
     (by decide) (by decide) (by decide) (by decide)).1⟩

theorem ConfirmAdded_fst_max (t : TopicPool) (nodeID : Nat) (p : PeerInfo)
    (hp : lookupPeer t.peers nodeID = some p) (hmax : t.connected = t.limits.max) :
    (ConfirmAdded t nodeID).1 =
      { t with peers := insertPeer t.peers nodeID { p with requested := true } } := by
  unfold ConfirmAdded
  rw [hp]
  simp [hmax]

theorem ConfirmAdded_fst_new (t : TopicPool) (nodeID : Nat) (p : PeerInfo)
    (hp : lookupPeer t.peers nodeID = some p) (hmax : ¬ (t.connected = t.limits.max))
    (hconn : p.connected = false) :
    (ConfirmAdded t nodeID).1 =
      { t with peers := insertPeer t.peers nodeID { p with connected := true },
               connected := t.connected + 1 } := by
  unfold ConfirmAdded
  rw [hp]
  simp [hmax, hconn]

theorem ConfirmDropped_fst_unrequested (t : TopicPool) (nodeID : Nat) (now : Int) (p : PeerInfo)
    (hp : lookupPeer t.peers nodeID = some p) (hreq : p.requested = false) :
    ((ConfirmDropped t nodeID now).1).1 =
      { t with connected := t.connected - 1, peers := erasePeer t.peers nodeID } := by
  unfold ConfirmDropped
  rw [hp]
  simp [hreq]

theorem processFoundNode_fst_known (t : TopicPool) (node : Node) (now : Int) (i : PeerInfo)
    (h : lookupPeer t.peers node.id = some i) :
    (processFoundNode t node now).1 =
      { t with peers := insertPeer t.peers node.id { i with discoveredTime := now } } := by
  unfold processFoundNode
  rw [h]

theorem processFoundNode_fst_new (t : TopicPool) (node : Node) (now : Int)
    (h : lookupPeer t.peers node.id = none) :
    (processFoundNode t node now).1 =
      { t with peers := insertPeer t.peers node.id ⟨now, false, false, node⟩ } := by
  unfold processFoundNode
  rw [h]

theorem countConnected_cons (kv : Nat × PeerInfo) (l : List (Nat × PeerInfo)) :
    countConnected (kv :: l) = (if kv.2.connected then 1 else 0) + countConnected l := by
  by_cases h : kv.2.connected
  all_goals simp [countConnected, List.filter_cons, h]
  all_goals omega

theorem countConnected_insert_same (l : List (Nat × PeerInfo)) (nodeID : Nat) (p v : PeerInfo)
    (hp : lookupPeer l nodeID = some p) (hv : v.connected = p.connected) :
    countConnected (insertPeer l nodeID v) = countConnected l := by
  induction l with
  | nil => simp [lookupPeer] at hp
  | cons kv rest ih =>
    simp only [lookupPeer] at hp
    by_cases hk : kv.1 = nodeID
    · rw [if_pos hk] at hp
      injection hp with hp2
      have hvc : v.connected = kv.2.connected := by rw [hv, hp2]
      have h1 : insertPeer (kv :: rest) nodeID v = (nodeID, v) :: rest := by
        simp [insertPeer, hk]
      rw [h1, countConnected_cons, countConnected_cons]
      simp [hvc]
    · rw [if_neg hk] at hp
      have h1 : insertPeer (kv :: rest) nodeID v = kv :: insertPeer rest nodeID v := by
        simp [insertPeer, hk]
      rw [h1, countConnected_cons, countConnected_cons, ih hp]

theorem countConnected_insert_flip (l : List (Nat × PeerInfo)) (nodeID : Nat) (p v : PeerInfo)
    (hp : lookupPeer l nodeID = some p) (hpc : p.connected = false) (hvc : v.connected = true) :
    countConnected (insertPeer l nodeID v) = countConnected l + 1 := by
  induction l with
  | nil => simp [lookupPeer] at hp
  | cons kv rest ih =>
    simp only [lookupPeer] at hp
    by_cases hk : kv.1 = nodeID
    · rw [if_pos hk] at hp
      injection hp with hp2
      have hkc : kv.2.connected = false := by rw [hp2, hpc]
      have h1 : insertPeer (kv :: rest) nodeID v = (nodeID, v) :: rest := by
        simp [insertPeer, hk]
      rw [h1, countConnected_cons, countConnected_cons]
      simp [hvc, hkc]
      omega
    · rw [if_neg hk] at hp
      have h1 : insertPeer (kv :: rest) nodeID v = kv :: insertPeer rest nodeID v := by
        simp [insertPeer, hk]
      rw [h1, countConnected_cons, countConnected_cons, ih hp]
      omega

theorem countConnected_insert_fresh (l : List (Nat × PeerInfo)) (nodeID : Nat) (v : PeerInfo)
    (hp : lookupPeer l nodeID = none) (hvc : v.connected = false) :
    countConnected (insertPeer l nodeID v) = countConnected l := by
  induction l with
  | nil => simp [insertPeer, countConnected, List.filter, hvc]
  | cons kv rest ih =>
    simp only [lookupPeer] at hp
    by_cases hk : kv.1 = nodeID
    · rw [if_pos hk] at hp
      simp at hp
    · rw [if_neg hk] at hp
      have h1 : insertPeer (kv :: rest) nodeID v = kv :: insertPeer rest nodeID v := by
        simp [insertPeer, hk]
      rw [h1, countConnected_cons, countConnected_cons, ih hp]

theorem countConnected_erase_connected (l : List (Nat × PeerInfo)) (nodeID : Nat) (p : PeerInfo)
    (hp : lookupPeer l nodeID = some p) (hpc : p.connected = true) :
    countConnected l = countConnected (erasePeer l nodeID) + 1 := by
  induction l with
  | nil => simp [lookupPeer] at hp
  | cons kv rest ih =>
    simp only [lookupPeer] at hp
    by_cases hk : kv.1 = nodeID
    · rw [if_pos hk] at hp
      injection hp with hp2
      have hkc : kv.2.connected = true := by rw [hp2]; exact hpc
      have h1 : erasePeer (kv :: rest) nodeID = rest := by simp [erasePeer, hk]
      rw [h1, countConnected_cons, hkc]
      simp [Nat.add_comm]
    · rw [if_neg hk] at hp
      have h1 : erasePeer (kv :: rest) nodeID = kv :: erasePeer rest nodeID := by
        simp [erasePeer, hk]
      rw [h1, countConnected_cons, countConnected_cons, ih hp]
      omega

/-- A drop is guarded when the dropped node is untracked, or its entry is
requested or connected; the code decrements the counter for a tracked
unrequested entry even when it was never confirmed connected, which is
exactly the unguarded case. -/
def safeOp (t : TopicPool) : Op → Bool
  | Op.dropped nodeID _ =>
    match lookupPeer t.peers nodeID with
    | some p => p.requested || p.connected
    | none => true
  | _ => true

/-- Every drop along the sequence is guarded at the state it applies to. -/
def safeOps : TopicPool → List Op → Bool
  | _, [] => true
  | t, op :: ops => safeOp t op && safeOps (applyOp t op) ops

theorem applyOp_counts (t : TopicPool) (op : Op)
    (hinv : t.connected = (countConnected t.peers : Int))
    (hsafe : safeOp t op = true) :
    (applyOp t op).connected = (countConnected (applyOp t op).peers : Int) := by
  cases op with
  | added id2 =>
    simp only [applyOp]
    cases h2 : lookupPeer t.peers id2 with
    | none =>
      rw [ConfirmAdded_fst_none t id2 h2]
      exact hinv
    | some p2 =>
      by_cases hmax : t.connected = t.limits.max
      · rw [ConfirmAdded_fst_max t id2 p2 h2 hmax]
        show t.connected = (countConnected (insertPeer t.peers id2 { p2 with requested := true }) : Int)
        rw [countConnected_insert_same t.peers id2 p2 { p2 with requested := true } h2 rfl]
        exact hinv
      · by_cases hconn : p2.connected = false
        · rw [ConfirmAdded_fst_new t id2 p2 h2 hmax hconn]
          show t.connected + 1 =
            (countConnected (insertPeer t.peers id2 { p2 with connected := true }) : Int)
          rw [countConnected_insert_flip t.peers id2 p2 { p2 with connected := true } h2 hconn rfl]
          omega
        · have hconn2 : p2.connected = true := by
            revert hconn
            cases p2.connected <;> simp
          rw [ConfirmAdded_fst_already t id2 p2 h2 hmax hconn2]
          exact hinv
  | dropped id2 now2 =>
    simp only [applyOp]
    cases h2 : lookupPeer t.peers id2 with
    | none =>
      rw [ConfirmDropped_eq_none t id2 now2 h2]
      exact hinv
    | some p2 =>
      by_cases hr2 : p2.requested = true
      · rw [confirmDropped_of_requested t id2 now2 p2 h2 hr2]
        exact hinv
      · have hr2f : p2.requested = false := by
          revert hr2
          cases p2.requested <;> simp
        have hc2 : p2.connected = true := by
          simp only [safeOp] at hsafe
          rw [h2] at hsafe
          simp [hr2f] at hsafe
          exact hsafe
        rw [ConfirmDropped_fst_unrequested t id2 now2 p2 h2 hr2f]
        show t.connected - 1 = (countConnected (erasePeer t.peers id2) : Int)
        have hcount := countConnected_erase_connected t.peers id2 p2 h2 hc2
        omega
  | found node now2 =>
    simp only [applyOp]
    cases h2 : lookupPeer t.peers node.id with
    | some i =>
      rw [processFoundNode_fst_known t node now2 i h2]
      show t.connected =
        (countConnected (insertPeer t.peers node.id { i with discoveredTime := now2 }) : Int)
      rw [countConnected_insert_same t.peers node.id i { i with discoveredTime := now2 } h2 rfl]
      exact hinv
    | none =>
      rw [processFoundNode_fst_new t node now2 h2]
      show t.connected =
        (countConnected (insertPeer t.peers node.id ⟨now2, false, false, node⟩) : Int)
      rw [countConnected_insert_fresh t.peers node.id ⟨now2, false, false, node⟩ h2 rfl]
      exact hinv

theorem applyOp_le_max (t : TopicPool) (op : Op) (hb : t.connected ≤ t.limits.max) :
    (applyOp t op).connected ≤ (applyOp t op).limits.max := by
  cases op with
  | added id2 =>
    simp only [applyOp]
    cases h2 : lookupPeer t.peers id2 with
    | none =>
      rw [ConfirmAdded_fst_none t id2 h2]
      exact hb
    | some p2 =>
      by_cases hmax : t.connected = t.limits.max
      · rw [ConfirmAdded_fst_max t id2 p2 h2 hmax]
        exact hb
      · by_cases hconn : p2.connected = false
        · rw [ConfirmAdded_fst_new t id2 p2 h2 hmax hconn]
          show t.connected + 1 ≤ t.limits.max
          omega
        · have hconn2 : p2.connected = true := by
            revert hconn
            cases p2.connected <;> simp
          rw [ConfirmAdded_fst_already t id2 p2 h2 hmax hconn2]
          exact hb
  | dropped id2 now2 =>
    simp only [applyOp]
    cases h2 : lookupPeer t.peers id2 with
    | none =>
      rw [ConfirmDropped_eq_none t id2 now2 h2]
      exact hb
    | some p2 =>
      by_cases hr2 : p2.requested = true
      · rw [confirmDropped_of_requested t id2 now2 p2 h2 hr2]
        exact hb
      · have hr2f : p2.requested = false := by
          revert hr2
          cases p2.requested <;> simp
        rw [ConfirmDropped_fst_unrequested t id2 now2 p2 h2 hr2f]
        show t.connected - 1 ≤ t.limits.max
        omega
  | found node now2 =>
    simp only [applyOp]
    cases h2 : lookupPeer t.peers node.id with
    | some i =>
      rw [processFoundNode_fst_known t node now2 i h2]
      exact hb
    | none =>
      rw [processFoundNode_fst_new t node now2 h2]
      exact hb

theorem runOps_counts (ops : List Op) (t : TopicPool)
    (hinv : t.connected = (countConnected t.peers : Int))
    (hsafe : safeOps t ops = true) :
    (runOps t ops).connected = (countConnected (runOps t ops).peers : Int) := by
  induction ops generalizing t with
  | nil => exact hinv
  | cons op ops2 ih =>
    simp only [safeOps, Bool.and_eq_true] at hsafe
    simp only [runOps]
    exact ih (applyOp t op) (applyOp_counts t op hinv hsafe.1) hsafe.2

theorem runOps_le_max (ops : List Op) (t : TopicPool) (hb : t.connected ≤ t.limits.max) :
    (runOps t ops).connected ≤ (runOps t ops).limits.max := by
  induction ops generalizing t with
  | nil => exact hb
  | cons op ops2 ih =>
    simp only [runOps]
    exact ih (applyOp t op) (applyOp_le_max t op hb)

/-- Guarded counter invariant: over any operation sequence from a fresh
pool in which every confirmed drop hits an untracked, requested or
connected entry, the connected counter equals the number of connected
peers entries.  The unguarded statement fails (see the C1 evaluation); the
guard excludes exactly the drop of a tracked entry never confirmed
connected. -/
theorem fresh_counts_of_safeOps (topic : Nat) (limits : Limits) (s f : Int) (ops : List Op)
    (hsafe : safeOps (NewTopicPool topic limits s f) ops = true) :
    (runOps (NewTopicPool topic limits s f) ops).connected =
      (countConnected (runOps (NewTopicPool topic limits s f) ops).peers : Int) :=
  runOps_counts ops _ (by simp [NewTopicPool, countConnected]) hsafe

/-- Guarded bounds: with nonnegative max and the same drop guard, the
counter stays within 0 and max along the whole sequence. -/
theorem fresh_bounds_of_safeOps (topic : Nat) (limits : Limits) (s f : Int) (ops : List Op)
    (hmax : 0 ≤ limits.max)
    (hsafe : safeOps (NewTopicPool topic limits s f) ops = true) :
    0 ≤ (runOps (NewTopicPool topic limits s f) ops).connected ∧
    (runOps (NewTopicPool topic limits s f) ops).connected ≤
      (runOps (NewTopicPool topic limits s f) ops).limits.max := by
  constructor
  · rw [fresh_counts_of_safeOps topic limits s f ops hsafe]
    exact Int.natCast_nonneg _
  · exact runOps_le_max ops _ (by simpa [NewTopicPool] using hmax)

end StatusPeers
